import Mathlib

/-!
Shallow embedding of `gowiki.go`, a minimal file-backed wiki server.

Modelling conventions:
- Strings and byte slices are modelled as `List Char` (the program treats
  bodies as opaque byte sequences; the `string`/`[]byte` conversions in Go
  are byte-for-byte on the ASCII data all claims concern).
- The file system is an explicit state value threaded through operations:
  an association list from filename to file data (content and permission
  bits), plus environment-controlled error tables saying which filenames
  are currently unreadable or unwritable, so that `ioutil.ReadFile` /
  `ioutil.WriteFile` failures are representable.
- An HTTP exchange is a function from the file-system state and a request
  to a response paired with the new state. Template execution
  (`renderTemplate`) is abstracted as a `render` response carrying the
  template name and the page handed to `templates.ExecuteTemplate`.
- Routing follows the documented semantics of `net/http.ServeMux` for the
  patterns registered in `main` ("/", "/view/", "/edit/", "/save/"):
  the mux first cleans the path (`path.Clean`, keeping a trailing slash),
  issuing a 301 redirect when cleaning changes the path or when the path
  is a registered subtree pattern minus its trailing slash, and otherwise
  dispatches to the handler with the longest matching registered pattern.
-/

set_option autoImplicit false

namespace GoWiki

/-- Convert a Lean string literal to the `List Char` representation used
throughout the model. -/
def str (s : String) : List Char := s.data

/-- Content and permission bits of one stored file (`ioutil.WriteFile`
receives the permission as its third argument). -/
structure FileData where
  content : List Char
  perm : Nat
deriving DecidableEq, Repr

/-- The file-system state visible to the program: stored files keyed by
filename, plus the filenames on which a read or a write currently fails,
with the error text the failing operation reports. -/
structure Fs where
  files : List (List Char × FileData)
  readErrs : List (List Char × List Char)
  writeErrs : List (List Char × List Char)
deriving DecidableEq, Repr

/-- A file system with no files and no failing operations. -/
def emptyFs : Fs := ⟨[], [], []⟩

/-- `ioutil.WriteFile filename content perm`: fails when the environment
makes `name` unwritable; otherwise stores `content` with `perm`, creating
or replacing the file, and makes the freshly written file readable. -/
def writeFile (fs : Fs) (name content : List Char) (perm : Nat) :
    Except (List Char) Fs :=
  match fs.writeErrs.lookup name with
  | some e => .error e
  | none => .ok { fs with
      files := (name, ⟨content, perm⟩) :: fs.files.filter (fun kv => kv.1 != name),
      readErrs := fs.readErrs.filter (fun kv => kv.1 != name) }

/-- `ioutil.ReadFile filename`: fails when the environment makes `name`
unreadable or when no such file exists; otherwise returns the content. -/
def readFile (fs : Fs) (name : List Char) : Except (List Char) (List Char) :=
  match fs.readErrs.lookup name with
  | some e => .error e
  | none =>
    match fs.files.lookup name with
    | some d => .ok d.content
    | none => .error (str "no such file or directory")

/-- Page represents a standard, interconnected wiki page consisting of a
title and body (the page content). -/
structure Page where
  Title : List Char
  Body : List Char
deriving DecidableEq, Repr

/-- `(p *Page) save()`: creates/updates `data/<Title>.txt` with `p`'s body
as the contents, permission bits `0600`. -/
def Page.save (p : Page) (fs : Fs) : Except (List Char) Fs :=
  writeFile fs (str "data/" ++ p.Title ++ str ".txt") p.Body 0o600

/-- `loadPage(title)`: reads `data/<title>.txt` and packages the contents
with the title into a `Page`, propagating the read error on failure. -/
def loadPage (title : List Char) (fs : Fs) : Except (List Char) Page :=
  match readFile fs (str "data/" ++ title ++ str ".txt") with
  | .error e => .error e
  | .ok body => .ok ⟨title, body⟩

/-- An incoming HTTP request: method, URL path, and the combined form
values (`r.FormValue` consults both the POST body and the URL query). -/
structure Request where
  method : List Char
  path : List Char
  form : List (List Char × List Char)
deriving DecidableEq, Repr

/-- `r.FormValue(key)`: the first form value for `key`, or the empty
string when the key is absent. -/
def formValue (r : Request) (key : List Char) : List Char :=
  (r.form.lookup key).getD []

/-- The two templates parsed at startup (`tmpl/view.html`,
`tmpl/edit.html`). -/
inductive TemplateName
  | view
  | edit
deriving DecidableEq, Repr

/-- The response a handler writes: `http.NotFound` (404), `http.Redirect`
with `StatusFound` (302), the mux's `StatusMovedPermanently` redirect
(301), a rendered template (200), or `http.Error` with
`StatusInternalServerError` (500). -/
inductive Response
  | notFound
  | redirect (loc : List Char)
  | movedPermanently (loc : List Char)
  | render (tmpl : TemplateName) (p : Page)
  | serverError (msg : List Char)
deriving DecidableEq, Repr

/-- `rootHandler`: redirects root path to `/view/FrontPage`. -/
def rootHandler (fs : Fs) (_r : Request) : Response × Fs :=
  (.redirect (str "/view/FrontPage"), fs)

/-- `viewHandler`: loads the wiki page and renders it; if the page does
not exist, redirects to edit a new page. -/
def viewHandler (fs : Fs) (_r : Request) (title : List Char) : Response × Fs :=
  match loadPage title fs with
  | .error _ => (.redirect (str "/edit/" ++ title), fs)
  | .ok p => (.render .view p, fs)

/-- `editHandler`: provides the form to edit and save the page's
contents; a failed load falls back to a page with an empty body. -/
def editHandler (fs : Fs) (_r : Request) (title : List Char) : Response × Fs :=
  match loadPage title fs with
  | .error _ => (.render .edit ⟨title, []⟩, fs)
  | .ok p => (.render .edit p, fs)

/-- `saveHandler`: saves the page built from the title and the `body`
form field, then redirects to view it; a failed save reports 500 with the
error text. -/
def saveHandler (fs : Fs) (r : Request) (title : List Char) : Response × Fs :=
  let body := formValue r (str "body")
  let p : Page := ⟨title, body⟩
  match p.save fs with
  | .error e => (.serverError e, fs)
  | .ok fs' => (.redirect (str "/view/" ++ title), fs')

/-- One character class of the `validPath` pattern: `[a-zA-Z0-9]`. -/
def isWikiChar (c : Char) : Bool :=
  ('a' ≤ c && c ≤ 'z') || ('A' ≤ c && c ≤ 'Z') || ('0' ≤ c && c ≤ '9')

/-- Strip an expected leading run of characters, returning the remainder
on success. -/
def stripPre : List Char → List Char → Option (List Char)
  | [], cs => some cs
  | _ :: _, [] => none
  | p :: ps, c :: cs => if c = p then stripPre ps cs else none

/-- The capture groups of the anchored pattern
`^/(edit|save|view)/([a-zA-Z0-9]+)$`: returned when `m ≠ nil`, first the
action group, then the title group. The three alternatives begin with
distinct characters, so at most one can match a given path. -/
inductive WikiAction
  | edit
  | save
  | view
deriving DecidableEq, Repr

/-- `validPath.FindStringSubmatch(path)` for the anchored pattern
`^/(edit|save|view)/([a-zA-Z0-9]+)$`: `some (action, title)` exactly when
the whole path is `/` + action + `/` + a nonempty alphanumeric title. -/
def findStringSubmatch (path : List Char) : Option (WikiAction × List Char) :=
  match stripPre (str "/edit/") path with
  | some t => if t ≠ [] ∧ t.all isWikiChar then some (.edit, t) else none
  | none =>
    match stripPre (str "/save/") path with
    | some t => if t ≠ [] ∧ t.all isWikiChar then some (.save, t) else none
    | none =>
      match stripPre (str "/view/") path with
      | some t => if t ≠ [] ∧ t.all isWikiChar then some (.view, t) else none
      | none => none

/-- `makeHandler(fn)`: validates the request path against `validPath`;
answers 404 when it does not match, and otherwise runs `fn` on the title
capture group `m[2]`. -/
def makeHandler (fn : Fs → Request → List Char → Response × Fs)
    (fs : Fs) (r : Request) : Response × Fs :=
  match findStringSubmatch r.path with
  | none => (.notFound, fs)
  | some (_, title) => fn fs r title

/-- Split a character list on `/`, keeping empty segments. -/
def splitOnSlash : List Char → List (List Char)
  | [] => [[]]
  | c :: cs =>
    match splitOnSlash cs with
    | [] => [[]]
    | s :: rest => if c = '/' then [] :: s :: rest else (c :: s) :: rest

/-- Segment pass of `path.Clean` on a rooted path: empty and `.` segments
vanish, `..` pops the previous kept segment (or vanishes at the root). -/
def cleanSegs (acc : List (List Char)) : List (List Char) → List (List Char)
  | [] => acc.reverse
  | s :: rest =>
    if s = [] ∨ s = ['.'] then cleanSegs acc rest
    else if s = ['.', '.'] then cleanSegs acc.tail rest
    else cleanSegs (s :: acc) rest

/-- `net/http`'s `cleanPath`: roots the path, applies `path.Clean`, and
restores a trailing slash the cleaning removed. -/
def cleanPath (p : List Char) : List Char :=
  let p := if p = [] then str "/" else p
  let p := if p.head? = some '/' then p else '/' :: p
  let segs := cleanSegs [] (splitOnSlash (p.drop 1))
  let np := if segs = [] then str "/" else '/' :: List.intercalate (str "/") segs
  if p.getLast? = some '/' ∧ np ≠ str "/" then np ++ str "/" else np

/-- `ServeMux.redirectToPathSlash` for the patterns registered in `main`:
a cleaned path equal to a registered subtree pattern minus its trailing
slash is 301-redirected to the pattern (no redirect when the path itself
is registered). -/
def redirectSlash (path : List Char) : Option (List Char) :=
  if path = str "/" ∨ path = str "/view/" ∨ path = str "/edit/" ∨ path = str "/save/" then
    none
  else if path = str "/view" ∨ path = str "/edit" ∨ path = str "/save" then
    some (path ++ str "/")
  else none

/-- The served application: `main` registers `rootHandler` at `/` and the
wrapped view/edit/save handlers at their subtrees, and `ServeMux` cleans
the path, applies the trailing-slash redirect, and dispatches on the
longest matching registered pattern (the three subtrees are mutually
exclusive, and `/` matches every path). -/
def serve (fs : Fs) (r : Request) : Response × Fs :=
  let path := cleanPath r.path
  match redirectSlash path with
  | some loc => (.movedPermanently loc, fs)
  | none =>
    if path ≠ r.path then (.movedPermanently path, fs)
    else if (str "/view/").isPrefixOf r.path then makeHandler viewHandler fs r
    else if (str "/edit/").isPrefixOf r.path then makeHandler editHandler fs r
    else if (str "/save/").isPrefixOf r.path then makeHandler saveHandler fs r
    else rootHandler fs r

/-! ## Helper lemmas -/

/-- Filtering out every entry keyed `name` makes a `lookup` of `name`
fail. -/
theorem lookup_filter_self {α : Type} (name : List Char) :
    ∀ l : List (List Char × α),
      (l.filter (fun kv => kv.1 != name)).lookup name = none
  | [] => rfl
  | kv :: rest => by
    rw [List.filter]
    cases hb : (kv.1 != name) with
    | false => exact lookup_filter_self name rest
    | true =>
      have hne : (name == kv.1) = false := by
        rw [bne] at hb
        rw [Bool.not_eq_true'] at hb
        rw [beq_eq_false_iff_ne] at hb ⊢
        exact fun hx => hb hx.symm
      rw [List.lookup, hne]
      exact lookup_filter_self name rest

/-- A successful `save` leaves the store loading the page back
byte-for-byte. -/
theorem save_ok_load {p : Page} {fs fs' : Fs}
    (h : p.save fs = .ok fs') : loadPage p.Title fs' = .ok ⟨p.Title, p.Body⟩ := by
  unfold Page.save writeFile at h
  cases hw : fs.writeErrs.lookup (str "data/" ++ p.Title ++ str ".txt") with
  | some e => rw [hw] at h; exact absurd h (by simp)
  | none =>
    rw [hw] at h
    simp only [Except.ok.injEq] at h
    subst h
    unfold loadPage readFile
    simp [lookup_filter_self, List.lookup]

/-! ## Claims -/

/-- C1: For every title matching `[a-zA-Z0-9]+` and every sequence of
saved bodies, loading the title after the last save returns exactly the
most recently saved body: a single save followed by a load round-trips
the body byte-for-byte, and a second save to the same title replaces the
stored content (overwrite, not append). -/
theorem save_load_roundtrip_overwrite :
    ∀ (fs fs₁ fs₂ : Fs) (t b₁ b₂ : List Char),
      t ≠ [] → t.all isWikiChar = true →
      Page.save ⟨t, b₁⟩ fs = .ok fs₁ →
      loadPage t fs₁ = .ok ⟨t, b₁⟩ ∧
      (Page.save ⟨t, b₂⟩ fs₁ = .ok fs₂ → loadPage t fs₂ = .ok ⟨t, b₂⟩) := by
  intro fs fs₁ fs₂ t b₁ b₂ _ _ h₁
  exact ⟨save_ok_load h₁, fun h₂ => save_ok_load h₂⟩

/-- Concrete instance of `save_load_roundtrip_overwrite`: title `Test`,
body `hello` then `world`. -/
theorem save_load_roundtrip_overwrite_witness :
    loadPage (str "Test") ⟨[(str "data/Test.txt", ⟨str "hello", 0o600⟩)], [], []⟩ =
      .ok ⟨str "Test", str "hello"⟩ ∧
    loadPage (str "Test") ⟨[(str "data/Test.txt", ⟨str "world", 0o600⟩)], [], []⟩ =
      .ok ⟨str "Test", str "world"⟩ := by
  have h := save_load_roundtrip_overwrite emptyFs
    ⟨[(str "data/Test.txt", ⟨str "hello", 0o600⟩)], [], []⟩
    ⟨[(str "data/Test.txt", ⟨str "world", 0o600⟩)], [], []⟩
    (str "Test") (str "hello") (str "world")
    (by decide) (by decide) rfl
  exact ⟨h.1, h.2 rfl⟩

/-- C4: For every validated title, the save handler reads the form field
`body`, builds a `Page` from the title and that body, and persists it;
a failed write yields HTTP 500 carrying the raw error text, and a
successful write yields a 302 redirect to `/view/{title}` with the body
now stored. -/
theorem saveHandler_behavior :
    ∀ (fs fs' : Fs) (r : Request) (t e : List Char),
      (Page.save ⟨t, formValue r (str "body")⟩ fs = .error e →
        saveHandler fs r t = (.serverError e, fs)) ∧
      (Page.save ⟨t, formValue r (str "body")⟩ fs = .ok fs' →
        saveHandler fs r t = (.redirect (str "/view/" ++ t), fs') ∧
        loadPage t fs' = .ok ⟨t, formValue r (str "body")⟩) := by
  intro fs fs' r t e
  constructor
  · intro h
    simp only [saveHandler]
    rw [h]
  · intro h
    refine ⟨by simp only [saveHandler]; rw [h], ?_⟩
    exact save_ok_load (p := ⟨t, formValue r (str "body")⟩) h

/-- Concrete instances of `saveHandler_behavior`: a write error on
`data/Test.txt` produces a 500 with the error text, and a successful
write redirects to `/view/Test` with `hello` stored. -/
theorem saveHandler_behavior_witness :
    saveHandler ⟨[], [], [(str "data/Test.txt", str "disk full")]⟩
        ⟨str "POST", str "/save/Test", [(str "body", str "hello")]⟩ (str "Test") =
      (.serverError (str "disk full"), ⟨[], [], [(str "data/Test.txt", str "disk full")]⟩) ∧
    (saveHandler emptyFs
        ⟨str "POST", str "/save/Test", [(str "body", str "hello")]⟩ (str "Test") =
      (.redirect (str "/view/Test"), ⟨[(str "data/Test.txt", ⟨str "hello", 0o600⟩)], [], []⟩) ∧
      loadPage (str "Test") ⟨[(str "data/Test.txt", ⟨str "hello", 0o600⟩)], [], []⟩ =
        .ok ⟨str "Test", str "hello"⟩) := by
  refine ⟨?_, ?_⟩
  · exact (saveHandler_behavior ⟨[], [], [(str "data/Test.txt", str "disk full")]⟩ emptyFs
      ⟨str "POST", str "/save/Test", [(str "body", str "hello")]⟩
      (str "Test") (str "disk full")).1 rfl
  · exact (saveHandler_behavior emptyFs
      ⟨[(str "data/Test.txt", ⟨str "hello", 0o600⟩)], [], []⟩
      ⟨str "POST", str "/save/Test", [(str "body", str "hello")]⟩
      (str "Test") []).2 rfl

/-- C5: For every validated title whose backing file cannot be loaded,
the view handler answers a 302 redirect to `/edit/{title}`; when the
load succeeds it renders the `view` template with the loaded page
instead of redirecting. -/
theorem viewHandler_behavior :
    ∀ (fs : Fs) (r : Request) (t e : List Char) (p : Page),
      (loadPage t fs = .error e →
        viewHandler fs r t = (.redirect (str "/edit/" ++ t), fs)) ∧
      (loadPage t fs = .ok p → viewHandler fs r t = (.render .view p, fs)) := by
  intro fs r t e p
  constructor
  · intro h; simp only [viewHandler]; rw [h]
  · intro h; simp only [viewHandler]; rw [h]

/-- Concrete instances of `viewHandler_behavior`: `NoSuchPage` on an
empty store redirects to its edit form, while a stored `Test` page is
rendered. -/
theorem viewHandler_behavior_witness :
    viewHandler emptyFs ⟨str "GET", str "/view/NoSuchPage", []⟩ (str "NoSuchPage") =
      (.redirect (str "/edit/NoSuchPage"), emptyFs) ∧
    viewHandler ⟨[(str "data/Test.txt", ⟨str "hello", 0o600⟩)], [], []⟩
        ⟨str "GET", str "/view/Test", []⟩ (str "Test") =
      (.render .view ⟨str "Test", str "hello"⟩,
        ⟨[(str "data/Test.txt", ⟨str "hello", 0o600⟩)], [], []⟩) := by
  refine ⟨?_, ?_⟩
  · exact (viewHandler_behavior emptyFs ⟨str "GET", str "/view/NoSuchPage", []⟩
      (str "NoSuchPage") (str "no such file or directory") ⟨[], []⟩).1 rfl
  · exact (viewHandler_behavior ⟨[(str "data/Test.txt", ⟨str "hello", 0o600⟩)], [], []⟩
      ⟨str "GET", str "/view/Test", []⟩ (str "Test") []
      ⟨str "Test", str "hello"⟩).2 rfl

/-- C6: For every validated title, the edit handler never surfaces a
load failure as an error: a failed load proceeds with a page whose title
is set and whose body is empty, and in both the missing and the existing
case the handler renders the `edit` template. -/
theorem editHandler_behavior :
    ∀ (fs : Fs) (r : Request) (t e : List Char) (p : Page),
      (loadPage t fs = .error e →
        editHandler fs r t = (.render .edit ⟨t, []⟩, fs)) ∧
      (loadPage t fs = .ok p → editHandler fs r t = (.render .edit p, fs)) := by
  intro fs r t e p
  constructor
  · intro h; simp only [editHandler]; rw [h]
  · intro h; simp only [editHandler]; rw [h]

/-- Concrete instances of `editHandler_behavior`: `NoSuchPage` on an
empty store renders an edit form over an empty body, while a stored
`Test` page pre-fills the form. -/
theorem editHandler_behavior_witness :
    editHandler emptyFs ⟨str "GET", str "/edit/NoSuchPage", []⟩ (str "NoSuchPage") =
      (.render .edit ⟨str "NoSuchPage", []⟩, emptyFs) ∧
    editHandler ⟨[(str "data/Test.txt", ⟨str "hello", 0o600⟩)], [], []⟩
        ⟨str "GET", str "/edit/Test", []⟩ (str "Test") =
      (.render .edit ⟨str "Test", str "hello"⟩,
        ⟨[(str "data/Test.txt", ⟨str "hello", 0o600⟩)], [], []⟩) := by
  refine ⟨?_, ?_⟩
  · exact (editHandler_behavior emptyFs ⟨str "GET", str "/edit/NoSuchPage", []⟩
      (str "NoSuchPage") (str "no such file or directory") ⟨[], []⟩).1 rfl
  · exact (editHandler_behavior ⟨[(str "data/Test.txt", ⟨str "hello", 0o600⟩)], [], []⟩
      ⟨str "GET", str "/edit/Test", []⟩ (str "Test") []
      ⟨str "Test", str "hello"⟩).2 rfl

/-- C7: `save` writes the body to `data/<Title>.txt` (creating or
overwriting it) with owner-only permissions `0600`; `load` reads from the
same `data/<title>.txt` path, and fails with an I/O error when the file
is absent or unreadable. -/
theorem pageStore_paths :
    ∀ (fs fs' : Fs) (p : Page) (t : List Char),
      (Page.save p fs = .ok fs' →
        fs'.files.lookup (str "data/" ++ p.Title ++ str ".txt") =
          some ⟨p.Body, 0o600⟩) ∧
      loadPage t fs =
        (readFile fs (str "data/" ++ t ++ str ".txt")).map (fun b => ⟨t, b⟩) ∧
      (fs.files.lookup (str "data/" ++ t ++ str ".txt") = none →
        fs.readErrs.lookup (str "data/" ++ t ++ str ".txt") = none →
        loadPage t fs = .error (str "no such file or directory")) ∧
      (∀ e, fs.readErrs.lookup (str "data/" ++ t ++ str ".txt") = some e →
        loadPage t fs = .error e) := by
  intro fs fs' p t
  refine ⟨?_, ?_, ?_, ?_⟩
  · intro h
    unfold Page.save writeFile at h
    cases hw : fs.writeErrs.lookup (str "data/" ++ p.Title ++ str ".txt") with
    | some e => rw [hw] at h; exact absurd h (by simp)
    | none =>
      rw [hw] at h
      simp only [Except.ok.injEq] at h
      subst h
      simp [List.lookup]
  · unfold loadPage
    cases hr : readFile fs (str "data/" ++ t ++ str ".txt") with
    | error e => simp [Except.map]
    | ok body => simp [Except.map]
  · intro hf hr
    unfold loadPage readFile
    rw [hr, hf]
  · intro e hr
    unfold loadPage readFile
    rw [hr]

/-- Concrete instances of `pageStore_paths`: a fresh save of `hello`
under title `Test` is stored at `data/Test.txt` with permission `0600`;
loading from an empty store reports not-found; loading an unreadable
`data/Test.txt` reports the read error. -/
theorem pageStore_paths_witness :
    (⟨[(str "data/Test.txt", ⟨str "hello", 0o600⟩)], [], []⟩ : Fs).files.lookup
        (str "data/Test.txt") = some ⟨str "hello", 0o600⟩ ∧
    loadPage (str "Test") emptyFs = .error (str "no such file or directory") ∧
    loadPage (str "Test") ⟨[], [(str "data/Test.txt", str "permission denied")], []⟩ =
      .error (str "permission denied") := by
  refine ⟨?_, ?_, ?_⟩
  · exact (pageStore_paths emptyFs
      ⟨[(str "data/Test.txt", ⟨str "hello", 0o600⟩)], [], []⟩
      ⟨str "Test", str "hello"⟩ (str "Test")).1 rfl
  · exact (pageStore_paths emptyFs emptyFs ⟨str "Test", str "hello"⟩
      (str "Test")).2.2.1 rfl rfl
  · exact (pageStore_paths ⟨[], [(str "data/Test.txt", str "permission denied")], []⟩
      emptyFs ⟨str "Test", str "hello"⟩ (str "Test")).2.2.2
      (str "permission denied") rfl

/-- A successful match of `validPath` yields a nonempty, purely
alphanumeric title group. -/
theorem findStringSubmatch_alnum {p : List Char} {a : WikiAction} {t : List Char}
    (h : findStringSubmatch p = some (a, t)) :
    t ≠ [] ∧ t.all isWikiChar = true := by
  unfold findStringSubmatch at h
  split at h
  · split at h
    · rename_i cond
      simp only [Option.some.injEq, Prod.mk.injEq] at h
      obtain ⟨-, rfl⟩ := h
      exact ⟨cond.1, cond.2⟩
    · exact absurd h (by simp)
  · split at h
    · split at h
      · rename_i cond
        simp only [Option.some.injEq, Prod.mk.injEq] at h
        obtain ⟨-, rfl⟩ := h
        exact ⟨cond.1, cond.2⟩
      · exact absurd h (by simp)
    · split at h
      · split at h
        · rename_i cond
          simp only [Option.some.injEq, Prod.mk.injEq] at h
          obtain ⟨-, rfl⟩ := h
          exact ⟨cond.1, cond.2⟩
        · exact absurd h (by simp)
      · exact absurd h (by simp)

/-- C2: Every title handed to a business handler by the dispatcher — and
hence every identifier used to build a filename — is a nonempty string of
characters from `[a-zA-Z0-9]`; the traversal path `/view/../../etc/passwd`
is answered by the mux's cleaning redirect without invoking any wrapped
handler, so it never reaches `loadPage` or `save`. -/
theorem dispatched_title_alnum :
    (∀ (fn : Fs → Request → List Char → Response × Fs) (fs : Fs) (r : Request),
       makeHandler fn fs r = (.notFound, fs) ∨
       ∃ a t, findStringSubmatch r.path = some (a, t) ∧ t ≠ [] ∧
         t.all isWikiChar = true ∧ makeHandler fn fs r = fn fs r t) ∧
    ∀ (fs : Fs) (m form'),
      serve fs ⟨m, str "/view/../../etc/passwd", form'⟩ =
        (.movedPermanently (str "/etc/passwd"), fs) := by
  constructor
  · intro fn fs r
    cases h : findStringSubmatch r.path with
    | none =>
      left
      simp only [makeHandler]
      rw [h]
    | some at' =>
      right
      obtain ⟨a, t⟩ := at'
      obtain ⟨h1, h2⟩ := findStringSubmatch_alnum h
      refine ⟨a, t, rfl, h1, h2, ?_⟩
      simp only [makeHandler]
      rw [h]
  · intro fs m form'
    rfl

/-- C8: A request for the exact path `/` (any form data) is answered with
a 302 `StatusFound` redirect to `/view/FrontPage`. -/
theorem root_redirects_frontpage :
    ∀ (fs : Fs) (form' : List (List Char × List Char)),
      serve fs ⟨str "GET", str "/", form'⟩ =
        (.redirect (str "/view/FrontPage"), fs) := by
  intro fs form'
  rfl

/-- C10: No handler inspects the HTTP method — the whole served
application is invariant under changing the request method — and a `GET`
of `/save/Test` whose `body` value arrives as a query parameter persists
`hello` and redirects to `/view/Test` just as a POST would. -/
theorem handlers_ignore_method :
    (∀ (fs : Fs) (r : Request) (m : List Char),
       serve fs { r with method := m } = serve fs r) ∧
    ∃ fs' : Fs,
      serve emptyFs ⟨str "GET", str "/save/Test", [(str "body", str "hello")]⟩ =
        (.redirect (str "/view/Test"), fs') ∧
      loadPage (str "Test") fs' = .ok ⟨str "Test", str "hello"⟩ := by
  constructor
  · intro fs r m
    cases r
    rfl
  · exact ⟨⟨[(str "data/Test.txt", ⟨str "hello", 0o600⟩)], [], []⟩, rfl, rfl⟩

/-- Two prefixes of one list with equal lengths coincide. -/
theorem prefix_unique {p q l : List Char} (hp : p <+: l) (hq : q <+: l)
    (hlen : p.length = q.length) : p = q :=
  (List.prefix_of_prefix_length_le hp hq hlen.le).eq_of_length hlen

/-- A list cannot start with two distinct runs of the same length. -/
theorem isPrefixOf_false_of_ne {p q l : List Char}
    (hq : q.isPrefixOf l = true) (hlen : p.length = q.length) (hne : p ≠ q) :
    p.isPrefixOf l = false := by
  rw [Bool.eq_false_iff]
  intro hp
  exact hne (prefix_unique (List.isPrefixOf_iff_prefix.mp hp)
    (List.isPrefixOf_iff_prefix.mp hq) hlen)

/-- The trailing-slash redirect only ever fires on the three five-character
paths `/view`, `/edit`, `/save`, so paths of length at least six are exempt. -/
theorem redirectSlash_none_of_long {path : List Char} (h : 6 ≤ path.length) :
    redirectSlash path = none := by
  unfold redirectSlash
  split
  · rfl
  · split
    · rename_i h2
      exfalso
      rcases h2 with h2 | h2 | h2 <;> (rw [h2] at h; exact absurd h (by decide))
    · rfl

/-- C3 counterexample: the path `/foo` matches neither the `validPath`
pattern nor `/`, yet the server answers it with a 302 redirect to
`/view/FrontPage` — not with 404. -/
theorem nonmatching_path_not_404 :
    findStringSubmatch (str "/foo") = none ∧
    str "/foo" ≠ str "/" ∧
    serve emptyFs ⟨str "GET", str "/foo", []⟩ =
      (.redirect (str "/view/FrontPage"), emptyFs) ∧
    (Response.redirect (str "/view/FrontPage") : Response) ≠ .notFound := by
  refine ⟨rfl, by decide, rfl, by decide⟩

/-- C3 (amended): a request whose path lies under `/view/`, `/edit/` or
`/save/`, is already in canonical (cleaned) form, and fails the
`validPath` pattern is answered 404, whatever the method and form data;
paths outside those three subtrees fall to the root handler instead. -/
theorem prefixed_invalid_404 :
    ∀ (fs : Fs) (r : Request),
      cleanPath r.path = r.path →
      ((str "/view/").isPrefixOf r.path = true ∨
       (str "/edit/").isPrefixOf r.path = true ∨
       (str "/save/").isPrefixOf r.path = true) →
      findStringSubmatch r.path = none →
      serve fs r = (.notFound, fs) := by
  intro fs r hclean hpre hmatch
  have hlen : 6 ≤ r.path.length := by
    rcases hpre with h | h | h <;>
      exact (List.isPrefixOf_iff_prefix.mp h).length_le
  have hrs : redirectSlash r.path = none := redirectSlash_none_of_long hlen
  rcases hpre with h | h | h
  · simp [serve, hclean, hrs, h, makeHandler, hmatch]
  · have hv : (str "/view/").isPrefixOf r.path = false :=
      isPrefixOf_false_of_ne h (by decide) (by decide)
    simp [serve, hclean, hrs, hv, h, makeHandler, hmatch]
  · have hv : (str "/view/").isPrefixOf r.path = false :=
      isPrefixOf_false_of_ne h (by decide) (by decide)
    have he : (str "/edit/").isPrefixOf r.path = false :=
      isPrefixOf_false_of_ne h (by decide) (by decide)
    simp [serve, hclean, hrs, hv, he, h, makeHandler, hmatch]

/-- Concrete instance of `prefixed_invalid_404`: `/view/x!` is under
`/view/`, already clean, and fails the pattern, so it draws a 404. -/
theorem prefixed_invalid_404_witness :
    cleanPath (str "/view/x!") = str "/view/x!" ∧
    (str "/view/").isPrefixOf (str "/view/x!") = true ∧
    findStringSubmatch (str "/view/x!") = none ∧
    serve emptyFs ⟨str "GET", str "/view/x!", []⟩ = (.notFound, emptyFs) := by
  refine ⟨rfl, rfl, rfl, ?_⟩
  exact prefixed_invalid_404 emptyFs ⟨str "GET", str "/view/x!", []⟩ rfl
    (Or.inl rfl) rfl

/-- C9 counterexample: `/a//b` falls under none of the three registered
subtrees, yet it is not dispatched to `rootHandler`: the mux's path
cleaning answers it with a 301 redirect to `/a/b` instead of the root
handler's 302 to `/view/FrontPage`. -/
theorem catchall_counterexample :
    (str "/view/").isPrefixOf (str "/a//b") = false ∧
    (str "/edit/").isPrefixOf (str "/a//b") = false ∧
    (str "/save/").isPrefixOf (str "/a//b") = false ∧
    serve emptyFs ⟨str "GET", str "/a//b", []⟩ =
      (.movedPermanently (str "/a/b"), emptyFs) ∧
    (Response.movedPermanently (str "/a/b") : Response) ≠
      .redirect (str "/view/FrontPage") := by
  refine ⟨rfl, rfl, rfl, rfl, by decide⟩

/-- C9 (amended): every request whose path is already in canonical
(cleaned) form, is not one of the slash-redirected paths `/view`, `/edit`,
`/save`, and lies under none of the three registered subtrees — e.g.
`/etc/passwd` — is dispatched to `rootHandler` and receives a 302
redirect to `/view/FrontPage` rather than a 404. -/
theorem catchall_root_redirect :
    ∀ (fs : Fs) (r : Request),
      cleanPath r.path = r.path →
      r.path ≠ str "/view" → r.path ≠ str "/edit" → r.path ≠ str "/save" →
      (str "/view/").isPrefixOf r.path = false →
      (str "/edit/").isPrefixOf r.path = false →
      (str "/save/").isPrefixOf r.path = false →
      serve fs r = (.redirect (str "/view/FrontPage"), fs) := by
  intro fs r hclean h1 h2 h3 hv he hs
  have hrs : redirectSlash r.path = none := by
    unfold redirectSlash
    split
    · rfl
    · split
      · rename_i hcond
        exfalso
        rcases hcond with hc | hc | hc
        · exact h1 hc
        · exact h2 hc
        · exact h3 hc
      · rfl
  simp [serve, hclean, hrs, hv, he, hs, rootHandler]

/-- Concrete instance of `catchall_root_redirect`: `/etc/passwd` draws
the root handler's redirect to `/view/FrontPage`. -/
theorem catchall_root_redirect_witness :
    cleanPath (str "/etc/passwd") = str "/etc/passwd" ∧
    serve emptyFs ⟨str "GET", str "/etc/passwd", []⟩ =
      (.redirect (str "/view/FrontPage"), emptyFs) := by
  refine ⟨rfl, ?_⟩
  exact catchall_root_redirect emptyFs ⟨str "GET", str "/etc/passwd", []⟩ rfl
    (by decide) (by decide) (by decide) rfl rfl rfl

end GoWiki
